import Mathlib

/-!
# Verification of the pizza metadata tool

Shallow embedding of the decision core of `pizza` (directory scan and album
grouping, cached album resolution, track matching, field resolution and tag
writing, from `src/pizza/cli/__main__.py`, and the disc/track position
normalization of `src/pizza/app.py`), together with theorems settling the
specification's claims about it.
-/

set_option autoImplicit false

namespace Pizza

/-! ## Tags: the vorbis-comment mapping a FLAC file carries.

Mutagen presents a FLAC file's tags as a dict-like mapping from field name to
a list of string values.  We embed it as an association list; `getTag` is
`metadata.get(key)` and `setTag` is `metadata[key] = value`. -/

/-- A file's tag mapping: field name to list of values. -/
def Tags : Type := List (String × List String)

instance : DecidableEq Tags := by unfold Tags; infer_instance

/-- Embeds `metadata.get(key)`: value of the first entry with the given key. -/
def getTag (t : Tags) (k : String) : Option (List String) :=
  match t with
  | [] => none
  | (k', v) :: rest => if k' == k then some v else getTag rest k

/-- Embeds `key in metadata`: key presence test. -/
def hasTag (t : Tags) (k : String) : Bool :=
  (getTag t k).isSome

/-- Embeds `metadata[key] = value`: replace the first entry with the key, or append. -/
def setTag : Tags → String → List String → Tags
  | [], k, v => [(k, v)]
  | (k', v') :: rest, k, v =>
    if k' == k then (k, v) :: rest else (k', v') :: setTag rest k v

/-- Perform a sequence of `metadata[key] = value` assignments in order. -/
def setAll (t : Tags) : List (String × List String) → Tags
  | [] => t
  | (k, v) :: rest => setAll (setTag t k v) rest

/-- Embeds `metadata.clear()`. -/
def clearTags (_t : Tags) : Tags := []

/-! ## Python helpers used by the CLI code. -/

/-- Index (in characters) of the last `.` of a name, if any. -/
def lastDotIdx : List Char → Option Nat
  | [] => none
  | c :: rest =>
    match lastDotIdx rest with
    | some i => some (i + 1)
    | none => if c = '.' then some 0 else none

/-- Python `Path(name).suffix` on a final path component: the substring from
the last dot, except when the dot is the leading or the final character. -/
def pathSuffix (name : String) : String :=
  match lastDotIdx name.data with
  | some i => if 0 < i ∧ i + 1 < name.data.length then String.mk (name.data.drop i) else ""
  | none => ""

/-- Digit-string value; `none` when a non-digit appears. -/
def digitsValAux : Nat → List Char → Option Nat
  | acc, [] => some acc
  | acc, c :: rest =>
    if c.isDigit then digitsValAux (acc * 10 + (c.toNat - '0'.toNat)) rest else none

/-- Value of a nonempty all-digit character list. -/
def digitsVal : List Char → Option Nat
  | [] => none
  | cs => digitsValAux 0 cs

/-- Strip leading and trailing whitespace characters. -/
def stripChars (l : List Char) : List Char :=
  ((l.dropWhile Char.isWhitespace).reverse.dropWhile Char.isWhitespace).reverse

/-- Python `int(s)` on a string: optional surrounding whitespace, optional
sign, then at least one decimal digit; anything else raises `ValueError`,
embedded as `none`. -/
def pyInt (s : String) : Option Int :=
  match stripChars s.data with
  | '-' :: rest => (digitsVal rest).map (fun n => -(n : Int))
  | '+' :: rest => (digitsVal rest).map (fun n => (n : Int))
  | cs => (digitsVal cs).map (fun n => (n : Int))

/-- Python truthiness of an optional string (`None` and `""` are falsy). -/
def truthy : Option String → Bool
  | none => false
  | some s => !(s == "")

/-! ## Data model -/

/-- One file found under the scanned root.  `name` is the final path
component; `tags = none` embeds a file whose FLAC load raises `MutagenError`;
`length` is `metadata.info.length`, the audio duration. -/
structure FileEntry where
  name : String
  isFile : Bool
  tags : Option Tags
  length : Nat
  deriving DecidableEq

/-- A local track candidate: the `(title, position, file)` triple the scan
appends to `existing_album["tracks"]`. -/
structure Candidate where
  title : Option String
  position : Option String
  file : String
  deriving DecidableEq

/-- One entry of `import_list`: an album group built during the scan. -/
structure Group where
  album : String
  artist : String
  tracks : List Candidate
  deriving DecidableEq

/-- A track of a resolved album record (one entry of `response["tracks"]`). -/
structure TrackRecord where
  disc : Nat
  artist : List String
  title : String
  position : Int
  deriving DecidableEq

/-- A resolved album record (`response["data"]` of the find endpoint). -/
structure AlbumRecord where
  ids_album : String
  ids_artist : String
  artist : List String
  date : Option String
  album : String
  tracks : List TrackRecord
  deriving DecidableEq

/-- The find endpoint's JSON body: `{"code": ..., "data": record-or-null}`. -/
structure FindResponse where
  data : Option AlbumRecord
  deriving DecidableEq

/-- Lyrics provider result: optional synced and plain payloads; `none` for a
key that is absent or JSON-null. -/
structure LyricsResult where
  syncedLyrics : Option String
  plainLyrics : Option String
  deriving DecidableEq

/-! ## AlbumGrouper (`update`, directory scan, lines 66-108) -/

/-- Embeds `file.is_file() and file.suffix == ".flac"`. -/
def fileConsidered (f : FileEntry) : Bool :=
  f.isFile && (pathSuffix f.name == ".flac")

/-- Embeds `metadata.get("ALBUMARTIST", metadata.get("ARTIST"))`. -/
def localArtistTag (t : Tags) : Option (List String) :=
  (getTag t "ALBUMARTIST").orElse (fun _ => getTag t "ARTIST")

/-- The `(title, position, file)` triple appended for one scanned file:
`metadata.get("TITLE", [None])[0]` and `metadata.get("TRACK", [None])[0]`. -/
def candidateOf (t : Tags) (name : String) : Candidate :=
  { title := (getTag t "TITLE").bind List.head?
    position := (getTag t "TRACK").bind List.head?
    file := name }

/-- Append a candidate to the first group whose album matches
(`next(filter(lambda item: item["album"] == album, import_list), None)`),
creating a new group at the end of the list when none does.  Note the filter
compares the album only, not the artist. -/
def addToGroups : List Group → String → String → Candidate → List Group
  | [], artist, album, c => [{ album := album, artist := artist, tracks := [c] }]
  | g :: gs, artist, album, c =>
    if g.album == album then { g with tracks := g.tracks ++ [c] } :: gs
    else g :: addToGroups gs artist album c

/-- Observable per-file and per-group console warnings / notices. -/
inductive Log
  | failedLoading (file : String)
  | missingArtist (file : String)
  | missingAlbum (file : String)
  | fetchFailed
  | notFound
  | noData (file : String)
  | noMatch (file : String)
  | updated (file : String)
  deriving DecidableEq

/-- Process one enumerated file of the scan loop (lines 68-108): skip
non-FLAC entries silently, report unreadable files, skip already-processed
files unless `force`, skip files missing artist or album tags, and otherwise
append the candidate to its album's group. -/
def scanStep (force : Bool) (groups : List Group) (f : FileEntry) : List Group × List Log :=
  if fileConsidered f = false then (groups, [])
  else
    match f.tags with
    | none => (groups, [Log.failedLoading f.name])
    | some t =>
      if hasTag t "PIZZA" && !force then (groups, [])
      else
        match localArtistTag t with
        | none => (groups, [Log.missingArtist f.name])
        | some artistL =>
          match getTag t "ALBUM" with
          | none => (groups, [Log.missingAlbum f.name])
          | some albumL =>
            (addToGroups groups (artistL.headD "") (albumL.headD "") (candidateOf t f.name), [])

/-- The scan loop over the enumerated files, threading `import_list`. -/
def scanDirAux (force : Bool) (groups : List Group) : List FileEntry → List Group × List Log
  | [] => (groups, [])
  | f :: fs =>
    ((scanDirAux force (scanStep force groups f).1 fs).1,
     (scanStep force groups f).2 ++ (scanDirAux force (scanStep force groups f).1 fs).2)

/-- The whole directory scan: fold `scanStep` from an empty `import_list`. -/
def scanDir (force : Bool) (files : List FileEntry) : List Group × List Log :=
  scanDirAux force [] files

/-- The album keys of a group list. -/
def albumKeys (gs : List Group) : List String := gs.map Group.album

/-! ## MetadataCache and AlbumResolver (`update`, lines 111-134) -/

/-- The persisted cache: `(artist, album)` keys to stored find responses. -/
def Cache : Type := List ((String × String) × FindResponse)

instance : DecidableEq Cache := by unfold Cache; infer_instance

/-- Modelled from the spec: `cache.find_response` of the cache module
(`src/pizza/cli/cache.py` is not among the sources).  Spec §4.1: exact string
match on both fields, reporting absence on a missing key. -/
def find_response (c : Cache) (artist album : String) : Option FindResponse :=
  (c.find? (fun e => e.1.1 == artist && e.1.2 == album)).map Prod.snd

/-- Modelled from the spec: `cache.set_response` of the cache module
(`src/pizza/cli/cache.py` is not among the sources).  Spec §4.1: overwrites
any existing entry for that exact key. -/
def set_response : Cache → String → String → FindResponse → Cache
  | [], artist, album, r => [((artist, album), r)]
  | e :: rest, artist, album, r =>
    if e.1.1 == artist && e.1.2 == album then ((artist, album), r) :: rest
    else e :: set_response rest artist album r

/-- Outcome of resolving one group. -/
inductive ResolveResult
  | fetchFailed
  | notFound
  | ok (r : AlbumRecord)
  deriving DecidableEq

/-- The remote find endpoint: transport-level failure (`requests` exception,
non-2xx status, or JSON decode error) is `Except.error`. -/
def Remote : Type := String → String → Nat → Except Unit FindResponse

/-- Resolve one group (lines 117-134): consult the cache, on a miss post to
the find endpoint and cache the response only when its `data` is non-null;
a raised exception yields the "Failed to fetch" skip, a null `data` the
"Not found" skip.  The boolean records whether the remote endpoint was
invoked. -/
def resolveGroup (remote : Remote) (c : Cache) (artist album : String) (trackc : Nat) :
    Cache × ResolveResult × Bool :=
  match find_response c artist album with
  | some response =>
    match response.data with
    | none => (c, ResolveResult.notFound, false)
    | some r => (c, ResolveResult.ok r, false)
  | none =>
    match remote artist album trackc with
    | Except.error _ => (c, ResolveResult.fetchFailed, true)
    | Except.ok response =>
      let c' := if response.data.isSome then set_response c artist album response else c
      match response.data with
      | none => (c', ResolveResult.notFound, true)
      | some r => (c', ResolveResult.ok r, true)

/-! ## TrackMatcher (`update`, lines 138-148) -/

/-- The match predicate of line 145:
`x["title"] == title or str(x["position"]) == position`. -/
def matchPred (title position : Option String) (x : TrackRecord) : Bool :=
  (title == some x.title) || (position == some (toString x.position))

/-- Line 145: first track record satisfying the predicate, if any. -/
def findMatch (tracks : List TrackRecord) (title position : Option String) :
    Option TrackRecord :=
  tracks.find? (matchPred title position)

/-- Sort key of line 138: `int(x[1]) if x[1] is not None else 0`; a present
but non-decimal position raises `ValueError`. -/
def sortKey (c : Candidate) : Except Unit Int :=
  match c.position with
  | none => Except.ok 0
  | some s =>
    match pyInt s with
    | none => Except.error ()
    | some n => Except.ok n

/-- Compute every candidate's sort key (CPython's `sorted` evaluates all keys
before comparing); the first failing key aborts. -/
def computeKeys : List Candidate → Except Unit (List (Int × Candidate))
  | [] => Except.ok []
  | c :: cs =>
    match sortKey c with
    | Except.error e => Except.error e
    | Except.ok k =>
      match computeKeys cs with
      | Except.error e => Except.error e
      | Except.ok ks => Except.ok ((k, c) :: ks)

/-- Stable insertion of a keyed candidate after all entries with a key not
greater than its own. -/
def insertByKey (p : Int × Candidate) : List (Int × Candidate) → List (Int × Candidate)
  | [] => [p]
  | q :: rest => if p.1 < q.1 then p :: q :: rest else q :: insertByKey p rest

/-- Stable ascending sort by key. -/
def sortByKey (l : List (Int × Candidate)) : List (Int × Candidate) :=
  l.foldl (fun acc p => insertByKey p acc) []

/-- Embeds `sorted(item["tracks"], key = ...)` of line 138. -/
def sortCandidates (l : List Candidate) : Except Unit (List Candidate) :=
  match computeKeys l with
  | Except.error e => Except.error e
  | Except.ok ks => Except.ok ((sortByKey ks).map Prod.snd)

/-! ## FieldResolver and TagWriter (`update`, lines 150-182) -/

/-- Modelled from the spec: `__version__` of the package root
(`src/pizza/__init__.py` is not among the sources); the tool-version marker
value stamped into the `PIZZA` field. -/
def toolVersion : String := "pizza.version"

/-- External collaborators consumed by the per-file pipeline: the find
endpoint, the lyrics provider (`lrclib.get`, may raise), and the BPM
estimation subprocess chain (yields the already-rounded integer, may
raise). -/
structure Collab where
  remote : Remote
  lyricsGet : String → String → String → Nat → Except Unit (Option LyricsResult)
  bpmOf : String → Except Unit Int

/-- The `--bpm`, `--lyrics` and `--force` flags. -/
structure Options where
  bpm : Bool
  lyrics : Bool
  force : Bool
  deriving DecidableEq

/-- The static `field_index` mapping applied to `(response, match)`. -/
def baseFields (r : AlbumRecord) (m : TrackRecord) : List (String × List String) :=
  [("DISC", [toString m.disc]),
   ("ALBUM", [r.album]),
   ("TRACK", [toString m.position]),
   ("TITLE", [m.title]),
   ("ARTIST", m.artist),
   ("ALBUMARTIST", r.artist),
   ("MUSICBRAINZ_ALBUMID", [r.ids_album]),
   ("MUSICBRAINZ_ALBUMARTISTID", [r.ids_artist])]

/-- Lines 157-159: `YEAR` (text before the first `-` of the date) and `DATE`
when the record carries a date. -/
def dateFields (r : AlbumRecord) : List (String × List String) :=
  match r.date with
  | some d => [("YEAR", [(d.splitOn "-").headD ""]), ("DATE", [d])]
  | none => []

/-- Lines 163-167: `result.get("syncedLyrics", result.get("plainLyrics")) or
result.get("plainLyrics")` — prefer synced lyrics, with Python truthiness
falling back to the plain payload. -/
def pickLyrics (res : LyricsResult) : Option String :=
  match res.syncedLyrics.orElse (fun _ => res.plainLyrics) with
  | some s => if s == "" then res.plainLyrics else some s
  | none => res.plainLyrics

/-- Lines 162-167: the `LYRICS` assignment when `--lyrics` is enabled; the
provider call may raise. -/
def lyricsFields (opts : Options) (collab : Collab) (r : AlbumRecord) (m : TrackRecord)
    (duration : Nat) : Except Unit (List (String × List String)) :=
  if opts.lyrics then
    match collab.lyricsGet m.title (r.artist.headD "") r.album duration with
    | Except.error e => Except.error e
    | Except.ok none => Except.ok []
    | Except.ok (some res) =>
      match pickLyrics res with
      | some l => Except.ok [("LYRICS", [l])]
      | none => Except.ok []
  else Except.ok []

/-- Lines 170-178: the `BPM` assignment when `--bpm` is enabled; the
subprocess chain may raise. -/
def bpmFields (opts : Options) (collab : Collab) (file : String) :
    Except Unit (List (String × List String)) :=
  if opts.bpm then
    match collab.bpmOf file with
    | Except.error e => Except.error e
    | Except.ok b => Except.ok [("BPM", [toString b])]
  else Except.ok []

/-- The full assignment sequence of lines 152-181, in program order: the
eight static fields, the conditional date fields, the lyrics and BPM
enrichments (each may raise, aborting before any persistence), and the
`PIZZA` version stamp. -/
def buildFieldList (opts : Options) (collab : Collab) (r : AlbumRecord) (m : TrackRecord)
    (file : String) (duration : Nat) : Except Unit (List (String × List String)) :=
  match lyricsFields opts collab r m duration with
  | Except.error e => Except.error e
  | Except.ok lf =>
    match bpmFields opts collab file with
    | Except.error e => Except.error e
    | Except.ok bf =>
      Except.ok (baseFields r m ++ dateFields r ++ lf ++ bf ++ [("PIZZA", [toolVersion])])

/-- Lines 150-181 for one file: reload its tags, `clear()` them, and apply
the assembled assignment sequence; the saved mapping on success. -/
def writeTagsFor (opts : Options) (collab : Collab) (r : AlbumRecord) (m : TrackRecord)
    (file : String) (old : Tags) (duration : Nat) : Except Unit Tags :=
  match buildFieldList opts collab r m file duration with
  | Except.error e => Except.error e
  | Except.ok fl => Except.ok (setAll (clearTags old) fl)

/-- Every field name the per-file write can produce. -/
def allowedKeys : List String :=
  ["DISC", "ALBUM", "TRACK", "TITLE", "ARTIST", "ALBUMARTIST",
   "MUSICBRAINZ_ALBUMID", "MUSICBRAINZ_ALBUMARTISTID",
   "YEAR", "DATE", "LYRICS", "BPM", "PIZZA"]

/-! ## The per-candidate / per-group / whole-run pipeline (lines 136-182) -/

/-- Process one candidate of a resolved group (lines 140-182): the no-data
guard, the first-match scan, and on a match the assemble-then-save write.
Result: the emitted `metadata.save()` write if any, the emitted logs, and
whether an uncaught exception aborted the run.  `disk` and `dur` give the
tags and duration `FLAC(file)` reloads at line 150. -/
def processCandidate (opts : Options) (collab : Collab) (disk : String → Tags)
    (dur : String → Nat) (r : AlbumRecord) (c : Candidate) :
    Option (String × Tags) × List Log × Bool :=
  if !(truthy c.title || truthy c.position) then (none, [Log.noData c.file], false)
  else
    match findMatch r.tracks c.title c.position with
    | none => (none, [Log.noMatch c.file], false)
    | some m =>
      match writeTagsFor opts collab r m c.file (disk c.file) (dur c.file) with
      | Except.error _ => (none, [], true)
      | Except.ok t => (some (c.file, t), [Log.updated c.file], false)

/-- The per-file loop of a group; an abort stops the loop (the exception
propagates out of `update`). -/
def processCandidates (opts : Options) (collab : Collab) (disk : String → Tags)
    (dur : String → Nat) (r : AlbumRecord) :
    List Candidate → List (String × Tags) × List Log × Bool
  | [] => ([], [], false)
  | c :: cs =>
    match processCandidate opts collab disk dur r c with
    | (w, lg, true) => (w.toList, lg, true)
    | (w, lg, false) =>
      let rest := processCandidates opts collab disk dur r cs
      (w.toList ++ rest.1, lg ++ rest.2.1, rest.2.2)

/-- Process one group of `import_list` (lines 111-182): resolve it, skip it
on a fetch failure or a not-found result, otherwise sort its candidates (a
non-decimal present position aborts the run) and process them in order. -/
def processGroup (opts : Options) (collab : Collab) (disk : String → Tags)
    (dur : String → Nat) (cache : Cache) (g : Group) :
    Cache × List (String × Tags) × List Log × Bool :=
  match resolveGroup collab.remote cache g.artist g.album g.tracks.length with
  | (c', ResolveResult.fetchFailed, _) => (c', [], [Log.fetchFailed], false)
  | (c', ResolveResult.notFound, _) => (c', [], [Log.notFound], false)
  | (c', ResolveResult.ok r, _) =>
    match sortCandidates g.tracks with
    | Except.error _ => (c', [], [], true)
    | Except.ok sorted =>
      let res := processCandidates opts collab disk dur r sorted
      (c', res.1, res.2.1, res.2.2)

/-- The group loop of `update`: thread the cache through the groups, stopping
once a group aborts the run. -/
def processGroups (opts : Options) (collab : Collab) (disk : String → Tags)
    (dur : String → Nat) (cache : Cache) :
    List Group → Cache × List (String × Tags) × List Log × Bool
  | [] => (cache, [], [], false)
  | g :: gs =>
    match processGroup opts collab disk dur cache g with
    | (c', ws, ls, true) => (c', ws, ls, true)
    | (c', ws, ls, false) =>
      let rest := processGroups opts collab disk dur c' gs
      (rest.1, ws ++ rest.2.1, ls ++ rest.2.2.1, rest.2.2.2)

/-- The whole `update` command on a valid root: scan, then process the
grouped files. -/
def update (opts : Options) (collab : Collab) (disk : String → Tags)
    (dur : String → Nat) (cache : Cache) (files : List FileEntry) :
    Cache × List (String × Tags) × List Log × Bool :=
  processGroups opts collab disk dur cache (scanDir opts.force files).1

/-! ## The remote record construction (`src/pizza/app.py`, `grab_musicbrainz`) -/

/-- One element of a MusicBrainz artist-credit list: either a credit dict or
a join phrase string (filtered out by the `isinstance(artist, dict)` check). -/
inductive MBCredit
  | artist (name id : String)
  | phrase (s : String)
  deriving DecidableEq

/-- The names of the credit dicts, in order. -/
def creditNames : List MBCredit → List String
  | [] => []
  | MBCredit.artist n _ :: rest => n :: creditNames rest
  | MBCredit.phrase _ :: rest => creditNames rest

/-- Embeds `data["artist-credit"][0]["artist"]["id"]`. -/
def firstCreditId (l : List MBCredit) : String :=
  match l.head? with
  | some (MBCredit.artist _ i) => i
  | _ => ""

/-- One track of a medium's track list; `position` is the already-parsed
`int(track["position"])` raw published position. -/
structure MBTrackIn where
  position : Int
  title : String
  artist_credit : List MBCredit
  deriving DecidableEq

/-- One medium of `data["medium-list"]`. -/
structure MBMedium where
  track_count : Int
  track_list : List MBTrackIn
  deriving DecidableEq

instance : Inhabited MBMedium := ⟨⟨0, []⟩⟩

/-- A release as returned by `get_release_by_id`. -/
structure MBRelease where
  id : String
  artist_credit : List MBCredit
  date : Option String
  title : String
  medium_list : List MBMedium
  deriving DecidableEq

/-- The track loop of `grab_musicbrainz` from medium index `i` on: disc is
`index + 1`, and the global position of a track on the medium at index
`index > 0` is its raw position plus `medium_list[index - 1]["track-count"]`
— the previous disc's count only, not a cumulative sum. -/
def buildTracksAux (mediumList : List MBMedium) : Nat → List MBMedium → List TrackRecord
  | _, [] => []
  | i, m :: rest =>
    m.track_list.map (fun t =>
      { disc := i + 1
        artist := creditNames t.artist_credit
        title := t.title
        position :=
          if i > 0 then t.position + (mediumList.getD (i - 1) default).track_count
          else t.position }) ++ buildTracksAux mediumList (i + 1) rest

/-- Embeds `results["tracks"]` of `grab_musicbrainz`. -/
def buildTracks (mediumList : List MBMedium) : List TrackRecord :=
  buildTracksAux mediumList 0 mediumList

/-- Embeds `grab_musicbrainz`: the `results` dict assembled from the release. -/
def grab_musicbrainz (data : MBRelease) : AlbumRecord :=
  { ids_album := data.id
    ids_artist := firstCreditId data.artist_credit
    artist := creditNames data.artist_credit
    date := data.date
    album := data.title
    tracks := buildTracks data.medium_list }

/-! ## Concrete instances used by counterexamples and witnesses -/

/-- Tags of a first scanned file: artist `A`, album `X`. -/
def exTags1 : Tags :=
  [("ARTIST", ["A"]), ("ALBUM", ["X"]), ("TITLE", ["t1"]), ("TRACK", ["1"])]

/-- Tags of a second scanned file: artist `B`, same album `X`. -/
def exTags2 : Tags :=
  [("ARTIST", ["B"]), ("ALBUM", ["X"]), ("TITLE", ["t2"]), ("TRACK", ["2"])]

/-- First scanned file. -/
def exF1 : FileEntry := { name := "a.flac", isFile := true, tags := some exTags1, length := 100 }

/-- Second scanned file. -/
def exF2 : FileEntry := { name := "b.flac", isFile := true, tags := some exTags2, length := 200 }

/-- A non-FLAC regular file. -/
def exBad : FileEntry := { name := "cover.jpg", isFile := true, tags := some [], length := 0 }

/-- Resolved track record `{title: "A", position: 1}`. -/
def exTrackA : TrackRecord := { disc := 1, artist := ["A"], title := "A", position := 1 }

/-- Resolved track record `{title: "B", position: 2}`. -/
def exTrackB : TrackRecord := { disc := 1, artist := ["B"], title := "B", position := 2 }

/-- A three-disc release with per-disc track counts 10, 4 and 3. -/
def exMB : MBRelease :=
  { id := "rid"
    artist_credit := [MBCredit.artist "A" "aid"]
    date := some "2001-05-06"
    title := "X"
    medium_list :=
      [{ track_count := 10, track_list := [{ position := 5, title := "d1t5", artist_credit := [] }] },
       { track_count := 4, track_list := [{ position := 1, title := "d2t1", artist_credit := [] }] },
       { track_count := 3, track_list := [{ position := 2, title := "d3t2", artist_credit := [] }] }] }

/-- A remote endpoint that always answers `{"data": null}`. -/
def exRemoteNeg : Remote := fun _ _ _ => Except.ok { data := none }

/-- A resolved two-track album record. -/
def exAlbum : AlbumRecord :=
  { ids_album := "alb-id"
    ids_artist := "art-id"
    artist := ["A"]
    date := some "2001-05-06"
    album := "X"
    tracks := [exTrackA, exTrackB] }

/-- A remote endpoint that always answers with `exAlbum`. -/
def exRemotePos : Remote := fun _ _ _ => Except.ok { data := some exAlbum }

/-- Collaborators whose remote endpoint raises a transport error. -/
def exCollabFail : Collab :=
  { remote := fun _ _ _ => Except.error ()
    lyricsGet := fun _ _ _ _ => Except.ok none
    bpmOf := fun _ => Except.ok 0 }

/-- Collaborators whose remote succeeds but whose lyrics provider raises. -/
def exCollabLyricsFail : Collab :=
  { remote := exRemotePos
    lyricsGet := fun _ _ _ _ => Except.error ()
    bpmOf := fun _ => Except.ok 0 }

/-- Collaborators that all succeed. -/
def exCollabOk : Collab :=
  { remote := exRemotePos
    lyricsGet := fun _ _ _ _ => Except.ok (some { syncedLyrics := some "ly", plainLyrics := none })
    bpmOf := fun _ => Except.ok 120 }

/-- All enrichment flags off. -/
def exOptsPlain : Options := { bpm := false, lyrics := false, force := false }

/-- Lyrics enrichment on. -/
def exOptsLyrics : Options := { bpm := false, lyrics := true, force := false }

/-- The on-disk tag store and duration oracle used by witnesses. -/
def exDisk : String → Tags := fun _ => [("COMMENT", ["old"]), ("ALBUM", ["stale"])]

/-- Duration oracle used by witnesses. -/
def exDur : String → Nat := fun _ => 100

/-- A group whose two candidates carry decimal positions. -/
def exG : Group :=
  { album := "X", artist := "A",
    tracks := [{ title := some "A", position := some "1", file := "a.flac" },
               { title := some "B", position := some "2", file := "b.flac" }] }

/-- A group with one candidate whose position tag `A1` is not decimal. -/
def exGBad : Group :=
  { album := "X", artist := "A",
    tracks := [{ title := some "A", position := some "A1", file := "a.flac" }] }

/-- A candidate matching `exTrackA` by title. -/
def exCand : Candidate := { title := some "A", position := some "1", file := "a.flac" }

/-! # Theorems -/

@[simp] theorem getTag_nil (k : String) : getTag [] k = none := rfl

theorem getTag_setTag (t : Tags) (k' k : String) (v : List String) :
    getTag (setTag t k' v) k = if k' == k then some v else getTag t k := by
  induction t with
  | nil => rfl
  | cons p rest ih =>
    obtain ⟨pk, pv⟩ := p
    by_cases h1 : pk = k'
    · subst h1
      by_cases h2 : pk = k
      · subst h2
        simp [setTag, getTag]
      · simp [setTag, getTag, h2]
    · by_cases h2 : pk = k
      · subst h2
        have h3 : ¬ (k' = pk) := fun hc => h1 hc.symm
        simp [setTag, getTag, h1, h3]
      · simp [setTag, getTag, h1, h2, ih]

theorem getTag_setAll_of_not_mem (fl : List (String × List String)) (t : Tags) (k : String)
    (h : k ∉ fl.map Prod.fst) :
    getTag (setAll t fl) k = getTag t k := by
  induction fl generalizing t with
  | nil => rfl
  | cons p rest ih =>
    obtain ⟨pk, pv⟩ := p
    simp only [List.map_cons, List.mem_cons] at h
    push_neg at h
    simp only [setAll]
    rw [ih (setTag t pk pv) h.2, getTag_setTag]
    have h3 : ¬ (pk = k) := fun hc => h.1 hc.symm
    simp [h3]

theorem hasTag_setAll_of_mem (fl : List (String × List String)) (t : Tags) (k : String)
    (h : k ∈ fl.map Prod.fst) :
    hasTag (setAll t fl) k = true := by
  induction fl generalizing t with
  | nil => simp at h
  | cons p rest ih =>
    obtain ⟨pk, pv⟩ := p
    simp only [List.map_cons, List.mem_cons] at h
    by_cases hr : k ∈ rest.map Prod.fst
    · exact ih (setTag t pk pv) hr
    · have hk : k = pk := h.resolve_right hr
      subst hk
      simp only [setAll]
      rw [hasTag, getTag_setAll_of_not_mem rest _ k hr, getTag_setTag]
      simp

/-! ### Grouping lemmas -/

theorem mem_addToGroups (gs : List Group) (ar al : String) (c : Candidate) :
    ∃ g, g ∈ addToGroups gs ar al c ∧ g.album = al ∧ c ∈ g.tracks := by
  induction gs with
  | nil =>
    exact ⟨{ album := al, artist := ar, tracks := [c] }, by simp [addToGroups], rfl, by simp⟩
  | cons g rest ih =>
    by_cases h : g.album = al
    · refine ⟨{ g with tracks := g.tracks ++ [c] }, ?_, h, by simp⟩
      simp [addToGroups, h]
    · obtain ⟨g', hmem, hal, hc⟩ := ih
      exact ⟨g', by simp [addToGroups, h, hmem], hal, hc⟩

theorem albumKeys_addToGroups (gs : List Group) (ar al : String) (c : Candidate) :
    albumKeys (addToGroups gs ar al c) = albumKeys gs ∨
      (al ∉ albumKeys gs ∧ albumKeys (addToGroups gs ar al c) = albumKeys gs ++ [al]) := by
  induction gs with
  | nil =>
    right
    simp [albumKeys, addToGroups]
  | cons g rest ih =>
    by_cases h : g.album = al
    · left
      simp [addToGroups, h, albumKeys]
    · rcases ih with h1 | ⟨h2, h3⟩
      · left
        simp only [addToGroups, beq_iff_eq, h, if_false, albumKeys, List.map_cons]
        rw [show List.map Group.album (addToGroups rest ar al c) = List.map Group.album rest
          from h1]
      · right
        constructor
        · simp only [albumKeys, List.map_cons, List.mem_cons]
          push_neg
          exact ⟨fun hc => h hc.symm, h2⟩
        · simp only [addToGroups, beq_iff_eq, h, if_false, albumKeys, List.map_cons]
          rw [show List.map Group.album (addToGroups rest ar al c) =
            List.map Group.album rest ++ [al] from h3]
          simp

theorem nodup_albumKeys_addToGroups (gs : List Group) (ar al : String) (c : Candidate)
    (h : (albumKeys gs).Nodup) : (albumKeys (addToGroups gs ar al c)).Nodup := by
  rcases albumKeys_addToGroups gs ar al c with h1 | ⟨h2, h3⟩
  · rw [h1]; exact h
  · rw [h3, List.nodup_append]
    refine ⟨h, List.nodup_singleton _, ?_⟩
    intro a ha hb
    simp only [List.mem_singleton] at hb
    subst hb
    exact h2 ha

theorem scanStep_groups (force : Bool) (groups : List Group) (f : FileEntry) :
    (scanStep force groups f).1 = groups ∨
      ∃ ar al c, (scanStep force groups f).1 = addToGroups groups ar al c := by
  unfold scanStep
  repeat' split
  all_goals first
  | (left; rfl)
  | (right; exact ⟨_, _, _, rfl⟩)

theorem nodup_albumKeys_scanDirAux (force : Bool) (files : List FileEntry) :
    ∀ groups : List Group, (albumKeys groups).Nodup →
      (albumKeys (scanDirAux force groups files).1).Nodup := by
  induction files with
  | nil => intro groups h; exact h
  | cons f fs ih =>
    intro groups h
    simp only [scanDirAux]
    apply ih
    rcases scanStep_groups force groups f with h1 | ⟨ar, al, c, h1⟩
    · rw [h1]; exact h
    · rw [h1]; exact nodup_albumKeys_addToGroups _ _ _ _ h

/-- C1 (amended): grouping is keyed by the album tag alone.  Within one scan
an album value maps to exactly one group (the scanned group list never holds
two groups with the same album), and a scanned file's candidate is appended
to a group whose album equals the file's locally-read album — but nothing
constrains the member's artist to equal the group's artist, which is taken
from the first file that created the group. -/
theorem album_only_grouping :
    (∀ (force : Bool) (files : List FileEntry),
      (albumKeys (scanDir force files).1).Nodup) ∧
    (∀ (gs : List Group) (ar al : String) (c : Candidate),
      ∃ g, g ∈ addToGroups gs ar al c ∧ g.album = al ∧ c ∈ g.tracks) := by
  constructor
  · intro force files
    exact nodup_albumKeys_scanDirAux force files [] (by simp [albumKeys])
  · exact mem_addToGroups

/-- C1 counterexample: two files carrying the same album `X` but different
artists `A` and `B` are scanned into a single group whose key artist is `A`;
the second member's locally-read artist `B` differs from the group's artist,
so not every member's (artist, album) pair equals its group's key. -/
theorem c1_artist_leak_counterexample :
    (scanDir false [exF1, exF2]).1.map Group.artist = ["A"] ∧
    (scanDir false [exF1, exF2]).1.map Group.tracks =
      [[candidateOf exTags1 "a.flac", candidateOf exTags2 "b.flac"]] ∧
    localArtistTag exTags2 = some ["B"] ∧
    getTag exTags2 "ALBUM" = some ["X"] ∧
    ¬ ("B" = "A") := by
  decide

/-! ### The `.flac` filter (C10) -/

theorem pathSuffix_isSuffix (name : String) (h : pathSuffix name = ".flac") :
    ".flac".data <:+ name.data := by
  unfold pathSuffix at h
  split at h
  · rename_i i heq
    split at h
    · have hd : List.drop i name.data = ".flac".data := congrArg String.data h
      rw [← hd]
      exact List.drop_suffix _ _
    · exact absurd h (by decide)
  · exact absurd h (by decide)

/-- C10: the directory scan considers only regular files whose name carries
the exact `.flac` suffix; any other enumerated entry leaves the group list
unchanged and emits no warning, whatever tag data the file would have
carried (so no container parse is attempted for it). -/
theorem flac_filter_only (f : FileEntry) (force : Bool) (groups : List Group) :
    (fileConsidered f = true → f.isFile = true ∧ ".flac".data <:+ f.name.data) ∧
    ((f.isFile = false ∨ ¬ (".flac".data <:+ f.name.data)) →
      ∀ tg : Option Tags, scanStep force groups { f with tags := tg } = (groups, [])) := by
  constructor
  · intro h
    unfold fileConsidered at h
    simp only [Bool.and_eq_true, beq_iff_eq] at h
    exact ⟨h.1, pathSuffix_isSuffix f.name h.2⟩
  · intro h tg
    have hcons : fileConsidered { f with tags := tg } = false := by
      unfold fileConsidered
      rcases h with h | h
      · simp [h]
      · have : ¬ (pathSuffix f.name = ".flac") := fun hc => h (pathSuffix_isSuffix f.name hc)
        simp [this]
    simp [scanStep, hcons]

/-- C10 witness: the theorem applied to a FLAC file and to a non-FLAC file. -/
theorem flac_filter_only_witness :
    (exF1.isFile = true ∧ ".flac".data <:+ exF1.name.data) ∧
    (∀ tg : Option Tags, scanStep false [] { exBad with tags := tg } = ([], [])) :=
  ⟨(flac_filter_only exF1 false []).1 (by decide),
   (flac_filter_only exBad false []).2 (Or.inr (by decide))⟩

/-! ### TrackMatcher (C2) -/

/-- C2: for a candidate with title or raw position present, the matcher
returns the first record of the scanned list satisfying either equality
(title equal, or stringified position equal to the raw position string);
records before it that satisfy neither predicate are passed over, and the
records after it — whatever they are — are never considered. -/
theorem first_match_wins (pre post : List TrackRecord) (r : TrackRecord)
    (title position : Option String)
    (_hpresent : (truthy title || truthy position) = true)
    (hpre : ∀ x ∈ pre, matchPred title position x = false)
    (hr : matchPred title position r = true) :
    findMatch (pre ++ r :: post) title position = some r := by
  induction pre with
  | nil =>
    rw [List.nil_append]
    unfold findMatch
    exact List.find?_cons_of_pos _ hr
  | cons x xs ih =>
    rw [List.cons_append]
    unfold findMatch at *
    rw [List.find?_cons_of_neg _ (by simp [hpre x (by simp)])]
    exact ih (fun y hy => hpre y (by simp [hy]))

/-- C2 witness: candidate title `B` with no position against records
`[{title: A, position: 1}, {title: B, position: 2}]` selects the `B`
record. -/
theorem first_match_wins_witness :
    findMatch [exTrackA, exTrackB] (some "B") none = some exTrackB :=
  first_match_wins [exTrackA] [] exTrackB (some "B") none (by decide) (by decide) (by decide)

/-! ### Disc/track position normalization (C3) -/

theorem mem_buildTracksAux (ml : List MBMedium) (rest : List MBMedium) (i : Nat)
    (tr : TrackRecord) (h : tr ∈ buildTracksAux ml i rest) :
    ∃ j m t, rest.get? j = some m ∧ t ∈ m.track_list ∧
      tr.disc = i + j + 1 ∧ tr.title = t.title ∧ tr.artist = creditNames t.artist_credit ∧
      tr.position = (if i + j > 0
        then t.position + (ml.getD (i + j - 1) default).track_count
        else t.position) := by
  induction rest generalizing i with
  | nil => simp [buildTracksAux] at h
  | cons m ms ih =>
    simp only [buildTracksAux, List.mem_append, List.mem_map] at h
    rcases h with ⟨t, ht, rfl⟩ | h
    · exact ⟨0, m, t, rfl, ht, by simp, rfl, rfl, by simp⟩
    · obtain ⟨j, m', t, hj, ht, hd, hti, ha, hp⟩ := ih (i + 1) h
      have e : i + (j + 1) = i + 1 + j := by omega
      refine ⟨j + 1, m', t, by simpa using hj, ht, ?_, hti, ha, ?_⟩
      · rw [e]; exact hd
      · rw [e]; exact hp

/-- C3: every track of the record built by `grab_musicbrainz` carries, for
its 0-indexed source disc `i`, the raw published position when `i = 0`, and
the raw position plus the track count of disc `i - 1` only — not the
cumulative count of all preceding discs — when `i > 0`. -/
theorem grab_position_nonCumulative (data : MBRelease) (tr : TrackRecord)
    (h : tr ∈ (grab_musicbrainz data).tracks) :
    ∃ i m t, data.medium_list.get? i = some m ∧ t ∈ m.track_list ∧
      tr.disc = i + 1 ∧ tr.title = t.title ∧
      tr.position = (if i > 0
        then t.position + (data.medium_list.getD (i - 1) default).track_count
        else t.position) := by
  obtain ⟨j, m, t, hj, ht, hd, hti, _, hp⟩ :=
    mem_buildTracksAux data.medium_list data.medium_list 0 tr h
  exact ⟨j, m, t, hj, ht, by simpa using hd, hti, by simpa using hp⟩

/-- C3 witness: on a three-disc release with counts `[10, 4, 3]`, the track
published at raw position 2 of the third disc receives global position
`2 + 4` — the second disc's count only, not `2 + 10 + 4`. -/
theorem grab_position_nonCumulative_witness :
    ∃ i m t, exMB.medium_list.get? i = some m ∧ t ∈ m.track_list ∧
      ({ disc := 3, artist := [], title := "d3t2", position := 6 } : TrackRecord).disc = i + 1 ∧
      ({ disc := 3, artist := [], title := "d3t2", position := 6 } : TrackRecord).title = t.title ∧
      ({ disc := 3, artist := [], title := "d3t2", position := 6 } : TrackRecord).position =
        (if i > 0
          then t.position + (exMB.medium_list.getD (i - 1) default).track_count
          else t.position) :=
  grab_position_nonCumulative exMB
    { disc := 3, artist := [], title := "d3t2", position := 6 } (by decide)

/-! ### Negative lookups are never cached (C4) -/

/-- C4 (spec-modelled cache): with the cache missing the key and the remote
endpoint answering `{"data": null}`, resolution caches nothing and reports
not-found after invoking the endpoint, the next resolution of the same key
invokes the endpoint again, and — in general — a resolution changes the
cache only when the endpoint returned a response with non-null data. -/
theorem negative_never_cached (remote : Remote) (c : Cache) (a b : String) (tc : Nat)
    (hmiss : find_response c a b = none)
    (hneg : remote a b tc = Except.ok { data := none }) :
    resolveGroup remote c a b tc = (c, ResolveResult.notFound, true) ∧
    (resolveGroup remote (resolveGroup remote c a b tc).1 a b tc).2.2 = true ∧
    (∀ (c₂ : Cache) (a₂ b₂ : String) (tc₂ : Nat),
      (resolveGroup remote c₂ a₂ b₂ tc₂).1 ≠ c₂ →
      ∃ resp rec, remote a₂ b₂ tc₂ = Except.ok resp ∧ resp.data = some rec) := by
  have h1 : resolveGroup remote c a b tc = (c, ResolveResult.notFound, true) := by
    simp [resolveGroup, hmiss, hneg]
  refine ⟨h1, ?_, ?_⟩
  · rw [h1]
    simp [resolveGroup, hmiss, hneg]
  · intro c₂ a₂ b₂ tc₂ hne
    rcases hf : find_response c₂ a₂ b₂ with _ | resp
    · rcases hr : remote a₂ b₂ tc₂ with e | resp
      · simp [resolveGroup, hf, hr] at hne
      · rcases hd : resp.data with _ | rec
        · simp [resolveGroup, hf, hr, hd] at hne
        · refine ⟨resp, rec, ?_, ?_⟩ <;> simp [hr, hd]
    · rcases hd : resp.data with _ | rec
      · simp [resolveGroup, hf, hd] at hne
      · simp [resolveGroup, hf, hd] at hne

/-- C4 witness: the theorem at the empty cache and the always-negative
endpoint. -/
theorem negative_never_cached_witness :
    resolveGroup exRemoteNeg [] "A" "X" 2 = ([], ResolveResult.notFound, true) ∧
    (resolveGroup exRemoteNeg (resolveGroup exRemoteNeg [] "A" "X" 2).1 "A" "X" 2).2.2 = true ∧
    (∀ (c₂ : Cache) (a₂ b₂ : String) (tc₂ : Nat),
      (resolveGroup exRemoteNeg c₂ a₂ b₂ tc₂).1 ≠ c₂ →
      ∃ resp rec, exRemoteNeg a₂ b₂ tc₂ = Except.ok resp ∧ resp.data = some rec) :=
  negative_never_cached exRemoteNeg [] "A" "X" 2 rfl rfl

/-! ### Group-level skips are non-fatal (C5) -/

theorem processGroups_cons (opts : Options) (collab : Collab) (disk : String → Tags)
    (dur : String → Nat) (cache : Cache) (g : Group) (gs : List Group) :
    processGroups opts collab disk dur cache (g :: gs) =
      match processGroup opts collab disk dur cache g with
      | (c', ws, ls, true) => (c', ws, ls, true)
      | (c', ws, ls, false) =>
        ((processGroups opts collab disk dur c' gs).1,
         ws ++ (processGroups opts collab disk dur c' gs).2.1,
         ls ++ (processGroups opts collab disk dur c' gs).2.2.1,
         (processGroups opts collab disk dur c' gs).2.2.2) := rfl

theorem resolveGroup_skip_cache (remote : Remote) (c : Cache) (a b : String) (tc : Nat)
    (h : (resolveGroup remote c a b tc).2.1 = ResolveResult.fetchFailed ∨
         (resolveGroup remote c a b tc).2.1 = ResolveResult.notFound) :
    (resolveGroup remote c a b tc).1 = c := by
  rcases hf : find_response c a b with _ | resp
  · rcases hr : remote a b tc with e | resp
    · simp [resolveGroup, hf, hr]
    · rcases hd : resp.data with _ | rec
      · simp [resolveGroup, hf, hr, hd]
      · simp [resolveGroup, hf, hr, hd] at h
  · rcases hd : resp.data with _ | rec
    · simp [resolveGroup, hf, hd]
    · simp [resolveGroup, hf, hd] at h

/-- C5: a transport failure or a not-found answer from the resolver skips
the current group with the respective warning: no file write is emitted for
it, the cache is left exactly as it was, the run is not aborted, and the
loop proceeds to process the remaining groups on the unchanged cache. -/
theorem group_skip_nonfatal (opts : Options) (collab : Collab) (disk : String → Tags)
    (dur : String → Nat) (cache : Cache) (g : Group) (rest : List Group)
    (h : (resolveGroup collab.remote cache g.artist g.album g.tracks.length).2.1 =
          ResolveResult.fetchFailed ∨
         (resolveGroup collab.remote cache g.artist g.album g.tracks.length).2.1 =
          ResolveResult.notFound) :
    ∃ l : Log,
      ((resolveGroup collab.remote cache g.artist g.album g.tracks.length).2.1 =
        ResolveResult.fetchFailed → l = Log.fetchFailed) ∧
      ((resolveGroup collab.remote cache g.artist g.album g.tracks.length).2.1 =
        ResolveResult.notFound → l = Log.notFound) ∧
      processGroup opts collab disk dur cache g = (cache, [], [l], false) ∧
      processGroups opts collab disk dur cache (g :: rest) =
        ((processGroups opts collab disk dur cache rest).1,
         (processGroups opts collab disk dur cache rest).2.1,
         l :: (processGroups opts collab disk dur cache rest).2.2.1,
         (processGroups opts collab disk dur cache rest).2.2.2) := by
  have hc := resolveGroup_skip_cache collab.remote cache g.artist g.album g.tracks.length h
  rcases h with h | h
  · have heq : resolveGroup collab.remote cache g.artist g.album g.tracks.length =
        (cache, ResolveResult.fetchFailed,
         (resolveGroup collab.remote cache g.artist g.album g.tracks.length).2.2) :=
      Prod.ext hc (Prod.ext h rfl)
    have hpg : processGroup opts collab disk dur cache g = (cache, [], [Log.fetchFailed], false) := by
      rw [processGroup, heq]
    refine ⟨Log.fetchFailed, fun _ => rfl, ?_, hpg, ?_⟩
    · intro hn
      rw [h] at hn
      cases hn
    · rw [processGroups_cons, hpg]
      simp
  · have heq : resolveGroup collab.remote cache g.artist g.album g.tracks.length =
        (cache, ResolveResult.notFound,
         (resolveGroup collab.remote cache g.artist g.album g.tracks.length).2.2) :=
      Prod.ext hc (Prod.ext h rfl)
    have hpg : processGroup opts collab disk dur cache g = (cache, [], [Log.notFound], false) := by
      rw [processGroup, heq]
    refine ⟨Log.notFound, ?_, fun _ => rfl, hpg, ?_⟩
    · intro hn
      rw [h] at hn
      cases hn
    · rw [processGroups_cons, hpg]
      simp

/-- C5 witness: the theorem at a concrete group under an always-failing
remote endpoint, with a nonempty remaining group list. -/
theorem group_skip_nonfatal_witness :
    ∃ l : Log,
      ((resolveGroup exCollabFail.remote [] exG.artist exG.album exG.tracks.length).2.1 =
        ResolveResult.fetchFailed → l = Log.fetchFailed) ∧
      ((resolveGroup exCollabFail.remote [] exG.artist exG.album exG.tracks.length).2.1 =
        ResolveResult.notFound → l = Log.notFound) ∧
      processGroup exOptsPlain exCollabFail exDisk exDur [] exG = ([], [], [l], false) ∧
      processGroups exOptsPlain exCollabFail exDisk exDur [] (exG :: [exGBad]) =
        ((processGroups exOptsPlain exCollabFail exDisk exDur [] [exGBad]).1,
         (processGroups exOptsPlain exCollabFail exDisk exDur [] [exGBad]).2.1,
         l :: (processGroups exOptsPlain exCollabFail exDisk exDur [] [exGBad]).2.2.1,
         (processGroups exOptsPlain exCollabFail exDisk exDur [] [exGBad]).2.2.2) :=
  group_skip_nonfatal exOptsPlain exCollabFail exDisk exDur [] exG [exGBad] (Or.inl rfl)

/-! ### A non-decimal position tag aborts the run (C8) -/

theorem computeKeys_error (l : List Candidate) (c : Candidate) (hc : c ∈ l)
    (h : sortKey c = Except.error ()) : computeKeys l = Except.error () := by
  induction l with
  | nil => simp at hc
  | cons x xs ih =>
    rcases List.mem_cons.mp hc with rfl | hmem
    · simp [computeKeys, h]
    · rcases hk : sortKey x with e | k
      · simp [computeKeys, hk]
      · simp [computeKeys, hk, ih hmem]

theorem sortCandidates_error (l : List Candidate) (c : Candidate) (hc : c ∈ l)
    (h : sortKey c = Except.error ()) : sortCandidates l = Except.error () := by
  simp [sortCandidates, computeKeys_error l c hc h]

/-- C8: sorting the candidates of a successfully resolved group converts
each present raw position with Python `int`; if any candidate's position tag
is present but not a decimal integer string, the conversion raises, the
group produces no per-file skip at all, and the whole run aborts — the
remaining groups are never processed. -/
theorem bad_position_aborts (opts : Options) (collab : Collab) (disk : String → Tags)
    (dur : String → Nat) (cache : Cache) (g : Group) (rest : List Group) (r : AlbumRecord)
    (c : Candidate) (s : String)
    (hres : (resolveGroup collab.remote cache g.artist g.album g.tracks.length).2.1 =
      ResolveResult.ok r)
    (hc : c ∈ g.tracks) (hs : c.position = some s) (hbad : pyInt s = none) :
    processGroup opts collab disk dur cache g =
      ((resolveGroup collab.remote cache g.artist g.album g.tracks.length).1, [], [], true) ∧
    processGroups opts collab disk dur cache (g :: rest) =
      ((resolveGroup collab.remote cache g.artist g.album g.tracks.length).1, [], [], true) := by
  have hkey : sortKey c = Except.error () := by
    simp [sortKey, hs, hbad]
  have hsort := sortCandidates_error g.tracks c hc hkey
  have heq : resolveGroup collab.remote cache g.artist g.album g.tracks.length =
      ((resolveGroup collab.remote cache g.artist g.album g.tracks.length).1,
       ResolveResult.ok r,
       (resolveGroup collab.remote cache g.artist g.album g.tracks.length).2.2) :=
    Prod.ext rfl (Prod.ext hres rfl)
  have hpg : processGroup opts collab disk dur cache g =
      ((resolveGroup collab.remote cache g.artist g.album g.tracks.length).1, [], [], true) := by
    rw [processGroup, heq, hsort]
  exact ⟨hpg, by rw [processGroups_cons, hpg]⟩

/-- C8 witness: a candidate with position tag `A1` in a group the remote
resolves positively aborts the run; the remaining group is untouched. -/
theorem bad_position_aborts_witness :
    processGroup exOptsPlain exCollabOk exDisk exDur [] exGBad =
      ((resolveGroup exCollabOk.remote [] exGBad.artist exGBad.album
        exGBad.tracks.length).1, [], [], true) ∧
    processGroups exOptsPlain exCollabOk exDisk exDur [] (exGBad :: [exG]) =
      ((resolveGroup exCollabOk.remote [] exGBad.artist exGBad.album
        exGBad.tracks.length).1, [], [], true) :=
  bad_position_aborts exOptsPlain exCollabOk exDisk exDur [] exGBad [exG] exAlbum
    { title := some "A", position := some "A1", file := "a.flac" } "A1"
    rfl (by decide) rfl (by decide)

/-! ### Field assembly shapes -/

theorem setAll_append (t : Tags) (l1 l2 : List (String × List String)) :
    setAll t (l1 ++ l2) = setAll (setAll t l1) l2 := by
  induction l1 generalizing t with
  | nil => rfl
  | cons p rest ih =>
    obtain ⟨k, v⟩ := p
    simp [setAll, ih]

theorem getTag_setAll_last (t : Tags) (l : List (String × List String)) (k : String)
    (v : List String) : getTag (setAll t (l ++ [(k, v)])) k = some v := by
  rw [setAll_append]
  show getTag (setTag (setAll t l) k v) k = some v
  rw [getTag_setTag]
  simp

theorem buildFieldList_shape (opts : Options) (collab : Collab) (r : AlbumRecord)
    (m : TrackRecord) (file : String) (dur : Nat) (fl : List (String × List String))
    (h : buildFieldList opts collab r m file dur = Except.ok fl) :
    ∃ lf bf, lyricsFields opts collab r m dur = Except.ok lf ∧
      bpmFields opts collab file = Except.ok bf ∧
      fl = baseFields r m ++ dateFields r ++ lf ++ bf ++ [("PIZZA", [toolVersion])] := by
  unfold buildFieldList at h
  split at h
  · cases h
  · rename_i lf hlf
    split at h
    · cases h
    · rename_i bf hbf
      injection h with h2
      exact ⟨lf, bf, hlf, hbf, h2.symm⟩

theorem lyricsFields_shape (opts : Options) (collab : Collab) (r : AlbumRecord)
    (m : TrackRecord) (dur : Nat) (lf : List (String × List String))
    (h : lyricsFields opts collab r m dur = Except.ok lf) :
    (opts.lyrics = false → lf = []) ∧ (lf = [] ∨ ∃ l, lf = [("LYRICS", [l])]) := by
  unfold lyricsFields at h
  split at h
  · rename_i hly
    have hcontra : opts.lyrics = false → lf = [] := by
      intro hf
      rw [hf] at hly
      cases hly
    split at h
    · cases h
    · injection h with h2
      exact ⟨hcontra, Or.inl h2.symm⟩
    · split at h
      · rename_i res hig l hl
        injection h with h2
        exact ⟨hcontra, Or.inr ⟨l, h2.symm⟩⟩
      · injection h with h2
        exact ⟨hcontra, Or.inl h2.symm⟩
  · injection h with h2
    exact ⟨fun _ => h2.symm, Or.inl h2.symm⟩

theorem bpmFields_shape (opts : Options) (collab : Collab) (file : String)
    (bf : List (String × List String)) (h : bpmFields opts collab file = Except.ok bf) :
    (opts.bpm = true ∧ ∃ b : Int, bf = [("BPM", [toString b])]) ∨
    (opts.bpm = false ∧ bf = []) := by
  unfold bpmFields at h
  split at h
  · rename_i hb
    split at h
    · cases h
    · rename_i b heq
      injection h with h2
      exact Or.inl ⟨hb, b, h2.symm⟩
  · rename_i hb
    have hb' : opts.bpm = false := by simpa using hb
    injection h with h2
    exact Or.inr ⟨hb', h2.symm⟩

/-! ### Per-file writes are all-or-nothing (C6) -/

/-- C6: a file's tags are persisted only with the completely assembled field
list — every emitted write is the clear-then-assign sequence of a field list
that `buildFieldList` returned successfully — and when assembling the
enrichment fields of a matched candidate raises, the per-file step emits no
write at all for the file (its on-disk tags stay untouched) and the
exception propagates. -/
theorem write_all_or_nothing (opts : Options) (collab : Collab) (disk : String → Tags)
    (dur : String → Nat) (r : AlbumRecord) (c : Candidate) :
    (∀ (w : String × Tags) (logs : List Log) (ab : Bool),
      processCandidate opts collab disk dur r c = (some w, logs, ab) →
      ∃ m fl, findMatch r.tracks c.title c.position = some m ∧
        buildFieldList opts collab r m c.file (dur c.file) = Except.ok fl ∧
        w = (c.file, setAll (clearTags (disk c.file)) fl) ∧ ab = false) ∧
    (∀ m : TrackRecord, (truthy c.title || truthy c.position) = true →
      findMatch r.tracks c.title c.position = some m →
      buildFieldList opts collab r m c.file (dur c.file) = Except.error () →
      processCandidate opts collab disk dur r c = (none, [], true)) := by
  constructor
  · intro w logs ab h
    unfold processCandidate at h
    split at h
    · simp at h
    · split at h
      · simp at h
      · rename_i m hm
        split at h
        · simp at h
        · rename_i t ht
          simp only [Prod.mk.injEq, Option.some.injEq] at h
          obtain ⟨hw, _, hab⟩ := h
          unfold writeTagsFor at ht
          split at ht
          · cases ht
          · rename_i fl hfl
            injection ht with ht2
            exact ⟨m, fl, hm, hfl, by rw [← hw, ← ht2], hab.symm⟩
  · intro m hpres hm hfl
    have hguard : (!(truthy c.title || truthy c.position)) = false := by
      rw [hpres]
      rfl
    simp [processCandidate, hguard, hm, writeTagsFor, hfl]

/-- C6 witness: with lyrics enabled and a raising lyrics provider, the
candidate matching the first track produces no write and aborts. -/
theorem write_all_or_nothing_witness :
    processCandidate exOptsLyrics exCollabLyricsFail exDisk exDur exAlbum exCand =
      (none, [], true) :=
  (write_all_or_nothing exOptsLyrics exCollabLyricsFail exDisk exDur exAlbum exCand).2
    exTrackA (by decide) (by decide) rfl

/-! ### The processed marker (C7) -/

/-- C7: a readable file already carrying the `PIZZA` marker is skipped
silently by the scan on a normal run; with the force flag the marker check
is bypassed and the file is grouped from its artist/album tags as usual; and
every tag set a successful per-file write persists carries the `PIZZA`
field stamped with the tool version. -/
theorem pizza_marker (groups : List Group) (f : FileEntry) (t : Tags) :
    (f.tags = some t → hasTag t "PIZZA" = true → scanStep false groups f = (groups, [])) ∧
    (∀ artistL albumL : List String, fileConsidered f = true → f.tags = some t →
      localArtistTag t = some artistL → getTag t "ALBUM" = some albumL →
      scanStep true groups f =
        (addToGroups groups (artistL.headD "") (albumL.headD "") (candidateOf t f.name), [])) ∧
    (∀ (opts : Options) (collab : Collab) (r : AlbumRecord) (m : TrackRecord)
      (file : String) (old : Tags) (dur : Nat) (t' : Tags),
      writeTagsFor opts collab r m file old dur = Except.ok t' →
      getTag t' "PIZZA" = some [toolVersion]) := by
  refine ⟨?_, ?_, ?_⟩
  · intro htags hpz
    by_cases hcons : fileConsidered f = false
    · simp [scanStep, hcons]
    · simp [scanStep, hcons, htags, hpz]
  · intro artistL albumL hcons htags hart halb
    have hcons' : ¬ (fileConsidered f = false) := by
      rw [hcons]
      simp
    simp [scanStep, hcons', htags, hart, halb]
  · intro opts collab r m file old dur t' h
    unfold writeTagsFor at h
    split at h
    · cases h
    · rename_i fl hfl
      injection h with h2
      obtain ⟨lf, bf, hlf, hbf, hshape⟩ := buildFieldList_shape opts collab r m file dur fl hfl
      rw [← h2, hshape]
      exact getTag_setAll_last _ _ _ _

/-- Tags of an already-processed file. -/
def exTagsPizza : Tags := [("PIZZA", ["0"]), ("ARTIST", ["A"]), ("ALBUM", ["X"])]

/-- An already-processed file. -/
def exFPizza : FileEntry :=
  { name := "p.flac", isFile := true, tags := some exTagsPizza, length := 1 }

/-- The tag set a plain-options write of `exTrackA` persists. -/
def exWritten : Tags :=
  setAll (clearTags (exDisk "a.flac"))
    (baseFields exAlbum exTrackA ++ dateFields exAlbum ++ [] ++ [] ++
      [("PIZZA", [toolVersion])])

/-- C7 witness: the theorem applied to an already-processed file, without and
with the force flag, and to a concrete successful write. -/
theorem pizza_marker_witness :
    scanStep false [] exFPizza = ([], []) ∧
    scanStep true [] exFPizza =
      (addToGroups [] (["A"].headD "") (["X"].headD "") (candidateOf exTagsPizza "p.flac"), []) ∧
    getTag exWritten "PIZZA" = some [toolVersion] :=
  ⟨(pizza_marker [] exFPizza exTagsPizza).1 rfl (by decide),
   (pizza_marker [] exFPizza exTagsPizza).2.1 ["A"] ["X"] (by decide) rfl (by decide) (by decide),
   (pizza_marker [] exFPizza exTagsPizza).2.2 exOptsPlain exCollabOk exAlbum exTrackA
     "a.flac" (exDisk "a.flac") 100 exWritten rfl⟩

/-! ### A successful write replaces the whole tag set (C9) -/

/-- C9: a successful per-file write is insensitive to the file's previous
tags (they are cleared first), and the saved mapping carries keys only from
the resolved field set: the eight fixed fields and the `PIZZA` marker are
always present, `YEAR`/`DATE` exactly when the record has a date, `BPM`
exactly when the flag is on, no `LYRICS` when lyrics are off, and every key
outside the thirteen-name set — in particular any previously present tag —
is absent. -/
theorem write_replaces_tag_set (opts : Options) (collab : Collab) (r : AlbumRecord)
    (m : TrackRecord) (file : String) (old : Tags) (dur : Nat) (t : Tags)
    (h : writeTagsFor opts collab r m file old dur = Except.ok t) :
    (∀ old' : Tags, writeTagsFor opts collab r m file old' dur = Except.ok t) ∧
    (∀ k, k ∉ allowedKeys → getTag t k = none) ∧
    (∀ k, k ∈ ["DISC", "ALBUM", "TRACK", "TITLE", "ARTIST", "ALBUMARTIST",
      "MUSICBRAINZ_ALBUMID", "MUSICBRAINZ_ALBUMARTISTID", "PIZZA"] → hasTag t k = true) ∧
    hasTag t "YEAR" = r.date.isSome ∧
    hasTag t "DATE" = r.date.isSome ∧
    hasTag t "BPM" = opts.bpm ∧
    (opts.lyrics = false → hasTag t "LYRICS" = false) := by
  have hold : ∀ old' : Tags, writeTagsFor opts collab r m file old' dur = Except.ok t := by
    intro old'
    have he : writeTagsFor opts collab r m file old' dur =
        writeTagsFor opts collab r m file old dur := rfl
    rw [he, h]
  refine ⟨hold, ?_⟩
  unfold writeTagsFor at h
  split at h
  · cases h
  · rename_i fl hfl
    injection h with h2
    obtain ⟨lf, bf, hlf, hbf, hshape⟩ := buildFieldList_shape opts collab r m file dur fl hfl
    obtain ⟨hlf0, hlfc⟩ := lyricsFields_shape opts collab r m dur lf hlf
    have hbfc := bpmFields_shape opts collab file bf hbf
    subst hshape
    subst h2
    have hsub : ∀ k, k ∈ (baseFields r m ++ dateFields r ++ lf ++ bf ++
        [("PIZZA", [toolVersion])]).map Prod.fst → k ∈ allowedKeys := by
      intro k hmem
      simp only [List.map_append, List.mem_append] at hmem
      rcases hmem with ((((hmem | hmem) | hmem) | hmem) | hmem)
      · simp [baseFields] at hmem
        rcases hmem with rfl | rfl | rfl | rfl | rfl | rfl | rfl | rfl <;> decide
      · rcases hdate : r.date with _ | d
        · simp [dateFields, hdate] at hmem
        · simp [dateFields, hdate] at hmem
          rcases hmem with rfl | rfl <;> decide
      · rcases hlfc with rfl | ⟨lv, rfl⟩
        · simp at hmem
        · simp at hmem
          subst hmem
          decide
      · rcases hbfc with ⟨hbT, bv, rfl⟩ | ⟨hbF, rfl⟩
        · simp at hmem
          subst hmem
          decide
        · simp at hmem
      · simp at hmem
        subst hmem
        decide
    refine ⟨?_, ?_, ?_, ?_, ?_, ?_⟩
    · intro k hk
      rw [getTag_setAll_of_not_mem _ _ _ (fun hm => hk (hsub k hm))]
      rfl
    · intro k hk
      apply hasTag_setAll_of_mem
      simp only [List.map_append, List.mem_append]
      fin_cases hk <;> simp [baseFields]
    · rcases hdate : r.date with _ | d
      · simp only [Option.isSome_none]
        unfold hasTag
        rw [getTag_setAll_of_not_mem]
        · rfl
        · simp only [List.map_append, List.mem_append]
          push_neg
          refine ⟨⟨⟨⟨?_, ?_⟩, ?_⟩, ?_⟩, ?_⟩
          · simp [baseFields]
          · simp [dateFields, hdate]
          · rcases hlfc with rfl | ⟨lv, rfl⟩ <;> simp
          · rcases hbfc with ⟨hbT, bv, rfl⟩ | ⟨hbF, rfl⟩ <;> simp
          · simp
      · simp only [Option.isSome_some]
        apply hasTag_setAll_of_mem
        simp [baseFields, dateFields, hdate]
    · rcases hdate : r.date with _ | d
      · simp only [Option.isSome_none]
        unfold hasTag
        rw [getTag_setAll_of_not_mem]
        · rfl
        · simp only [List.map_append, List.mem_append]
          push_neg
          refine ⟨⟨⟨⟨?_, ?_⟩, ?_⟩, ?_⟩, ?_⟩
          · simp [baseFields]
          · simp [dateFields, hdate]
          · rcases hlfc with rfl | ⟨lv, rfl⟩ <;> simp
          · rcases hbfc with ⟨hbT, bv, rfl⟩ | ⟨hbF, rfl⟩ <;> simp
          · simp
      · simp only [Option.isSome_some]
        apply hasTag_setAll_of_mem
        simp [baseFields, dateFields, hdate]
    · rcases hbfc with ⟨hbT, bv, rfl⟩ | ⟨hbF, rfl⟩
      · rw [hbT]
        apply hasTag_setAll_of_mem
        simp
      · rw [hbF]
        unfold hasTag
        rw [getTag_setAll_of_not_mem]
        · rfl
        · simp only [List.map_append, List.mem_append]
          push_neg
          refine ⟨⟨⟨⟨?_, ?_⟩, ?_⟩, ?_⟩, ?_⟩
          · simp [baseFields]
          · rcases hdate : r.date with _ | d <;> simp [dateFields, hdate]
          · rcases hlfc with rfl | ⟨lv, rfl⟩ <;> simp
          · simp
          · simp
    · intro hly
      have hlfe := hlf0 hly
      subst hlfe
      unfold hasTag
      rw [getTag_setAll_of_not_mem]
      · rfl
      · simp only [List.map_append, List.mem_append]
        push_neg
        refine ⟨⟨⟨⟨?_, ?_⟩, ?_⟩, ?_⟩, ?_⟩
        · simp [baseFields]
        · rcases hdate : r.date with _ | d <;> simp [dateFields, hdate]
        · simp
        · rcases hbfc with ⟨hbT, bv, rfl⟩ | ⟨hbF, rfl⟩ <;> simp
        · simp

/-- C9 witness: the theorem at a concrete plain-options write over a disk
file that carried stale `COMMENT` and `ALBUM` tags. -/
theorem write_replaces_tag_set_witness :
    (∀ old' : Tags,
      writeTagsFor exOptsPlain exCollabOk exAlbum exTrackA "a.flac" old' 100 =
        Except.ok exWritten) ∧
    (∀ k, k ∉ allowedKeys → getTag exWritten k = none) ∧
    (∀ k, k ∈ ["DISC", "ALBUM", "TRACK", "TITLE", "ARTIST", "ALBUMARTIST",
      "MUSICBRAINZ_ALBUMID", "MUSICBRAINZ_ALBUMARTISTID", "PIZZA"] →
      hasTag exWritten k = true) ∧
    hasTag exWritten "YEAR" = exAlbum.date.isSome ∧
    hasTag exWritten "DATE" = exAlbum.date.isSome ∧
    hasTag exWritten "BPM" = exOptsPlain.bpm ∧
    (exOptsPlain.lyrics = false → hasTag exWritten "LYRICS" = false) :=
  write_replaces_tag_set exOptsPlain exCollabOk exAlbum exTrackA "a.flac"
    (exDisk "a.flac") 100 exWritten rfl

end Pizza
